import Mathlib

/-!
Verification development for the `x509-parser` X.509 structural decoder
(`src/x509.rs`).  The decoder code is embedded shallowly over byte lists.
The low-level TLV codec (`der_parser` crate) and the repository modules
that are not part of the shown source (`x509_parser` helpers, the
`extensions` dispatch, the `time` primitives and the OID registry) are
external collaborators; they are modelled from the specification's
description of their contracts (spec sections 4.1, 4.4, 4.5, 4.6, 4.7
and 6) and are marked `Modelled from the spec:` below.  Everything else
is a direct translation of the Rust source in `src/x509.rs`.
-/

namespace X509

/-- A byte buffer: a list of byte values. -/
abbrev Bytes := List Nat

/-- Error kinds.  Flattening of the Rust `BerError` / `X509Error` pair
(the code converts between them with `From`); the `nom` distinction
between recoverable errors and failures is not observable in any of the
claims and is not modelled. -/
inductive Err where
  | Incomplete
  | BerTypeError
  | InvalidTag
  | InvalidLength
  | IntegerTooLarge
  | LoopExhausted
  | DerConstraintFailed
  | InvalidVersion
  | InvalidSerialNumber
  | InvalidAlgorithmIdentifier
  | InvalidX509Name
  | InvalidDate
  | InvalidSPKI
  | InvalidIssuerUID
  | InvalidSubjectUID
  | InvalidExtensions
  | InvalidAttributes
  | InvalidSignatureValue
deriving DecidableEq, Repr

/-- Result of a parser: either an error, or the remaining input together
with the parsed value (the `IResult` order `(rem, value)` of the Rust
code). -/
abbrev Res (α : Type) := Except Err (Bytes × α)

/-- Interpret bytes as a big-endian natural number. -/
def beNat (l : Bytes) : Nat := l.foldl (fun a b => a * 256 + b) 0

/-- A decoded BER element header.
Modelled from the spec: section 4.1, the external TLV codec's
`read_header(buf) -> (tag, constructed?, length, remaining)`. -/
structure Hdr where
  cls : Nat
  constructed : Bool
  tag : Nat
  len : Nat
deriving DecidableEq, Repr

/-- Modelled from the spec: high-tag-number (multi-byte) tag form of the
external TLV codec.  Accumulates base-128 digits until a byte without
the continuation bit. -/
def readTagNum : Bytes → Nat → Except Err (Bytes × Nat)
  | [], _ => .error .Incomplete
  | b :: r, acc =>
    if b < 128 then .ok (r, acc * 128 + b)
    else readTagNum r (acc * 128 + (b - 128))

/-- Modelled from the spec: the length octets of the external TLV codec.
Short and long definite forms; the indefinite form is rejected, as the
spec requires for the DER contexts in which the decoder runs
("unsupported indefinite-length BER in contexts where only DER is
valid", spec section 4.1). -/
def readLength : Bytes → Except Err (Bytes × Nat)
  | [] => .error .Incomplete
  | l :: r =>
    if l < 128 then .ok (r, l)
    else if l = 128 then .error .DerConstraintFailed
    else
      let n := l - 128
      if r.length < n then .error .Incomplete
      else .ok (r.drop n, beNat (r.take n))

/-- Modelled from the spec: `read_header` of the external TLV codec
(section 4.1): identifier octet (class, constructed bit, tag number,
with the high-tag-number form delegated to `readTagNum`) followed by the
length octets. -/
def readHeader : Bytes → Except Err (Bytes × Hdr)
  | [] => .error .Incomplete
  | b :: r =>
    let cls := b / 64
    let constructed := decide ((b / 32) % 2 = 1)
    let tagbits := b % 32
    if tagbits = 31 then
      match readTagNum r 0 with
      | .error e => .error e
      | .ok (r1, t) =>
        match readLength r1 with
        | .error e => .error e
        | .ok (r2, n) => .ok (r2, ⟨cls, constructed, t, n⟩)
    else
      match readLength r with
      | .error e => .error e
      | .ok (r2, n) => .ok (r2, ⟨cls, constructed, tagbits, n⟩)

/-- Split off the `n` content bytes of an element (the `take` of the
external codec): fails with `Incomplete` when the buffer is truncated.
Returns `(content, remaining)`. -/
def takeBytes (n : Nat) (i : Bytes) : Except Err (Bytes × Bytes) :=
  if i.length < n then .error .Incomplete
  else .ok (i.take n, i.drop n)

/-- Modelled from the spec: `nom` `many0(complete(..))` iteration used
by the source; stops at the first error, guards against non-consuming
parsers, and is given enough fuel never to run out on a consuming
parser. -/
def many0F {α : Type} (p : Bytes → Res α) : Nat → Bytes → List α → Res (List α)
  | 0, _, _ => .error .LoopExhausted
  | fuel + 1, i, acc =>
    match p i with
    | .error _ => .ok (i, acc.reverse)
    | .ok (r, v) =>
      if r.length < i.length then many0F p fuel r (v :: acc)
      else .error .LoopExhausted

/-- `many0(complete(p))`. -/
def many0 {α : Type} (p : Bytes → Res α) (i : Bytes) : Res (List α) :=
  many0F p (i.length + 1) i []

/-- `many1(complete(p))`: at least one element. -/
def many1 {α : Type} (p : Bytes → Res α) (i : Bytes) : Res (List α) :=
  match p i with
  | .error e => .error e
  | .ok (r, v) =>
    if r.length < i.length then
      match many0F p (r.length + 1) r [] with
      | .error e => .error e
      | .ok (r2, vs) => .ok (r2, v :: vs)
    else .error .LoopExhausted

/-- An object identifier, kept as its raw DER content bytes (the
`der_parser` `Oid` is likewise a byte-backed value; `as_oid_val` yields
an owned copy of those bytes). -/
abbrev Oid := List Nat

/-- Bytes read as a text string.  Modelled from the spec: the external
codec's string readers expose string-typed content as text (section
4.1); byte-to-character decoding details are the collaborator's. -/
def strOfBytes (b : Bytes) : String := ⟨b.map Char.ofNat⟩

/-- Content of a decoded ASN.1 ANY value, with the variants the source
distinguishes: the four string types used by
`attribute_value_to_string`, constructed sequence/set content (whose
`as_slice` fails), and any other content kept as raw bytes. -/
inductive DerContent where
  | numericString (s : String)
  | printableString (s : String)
  | utf8String (s : String)
  | ia5String (s : String)
  | seq (raw : Bytes)
  | raw (tag : Nat) (bytes : Bytes)
deriving DecidableEq, Repr

/-- A decoded `DerObject` (ANY value). -/
structure DerObject where
  content : DerContent
deriving DecidableEq, Repr

/-- `DerObject::as_slice`: the content as a byte slice; fails on
constructed (sequence/set) content, as in `der_parser`. -/
def DerObject.asSlice (o : DerObject) : Except Err Bytes :=
  match o.content with
  | .numericString s => .ok (s.data.map Char.toNat)
  | .printableString s => .ok (s.data.map Char.toNat)
  | .utf8String s => .ok (s.data.map Char.toNat)
  | .ia5String s => .ok (s.data.map Char.toNat)
  | .seq _ => .error .BerTypeError
  | .raw _ b => .ok b

/-- Modelled from the spec: the external codec's generic ANY reader
(`parse_der`): one full TLV, classified by tag number into the content
variants above (tags 18/19/12/22 are NumericString, PrintableString,
UTF8String, IA5String; 16/17 sequence and set). -/
def parse_der (i : Bytes) : Res DerObject :=
  match readHeader i with
  | .error e => .error e
  | .ok (r, h) =>
    match takeBytes h.len r with
    | .error e => .error e
    | .ok (data, after) =>
      let c : DerContent :=
        if h.tag = 18 then .numericString (strOfBytes data)
        else if h.tag = 19 then .printableString (strOfBytes data)
        else if h.tag = 12 then .utf8String (strOfBytes data)
        else if h.tag = 22 then .ia5String (strOfBytes data)
        else if h.tag = 16 ∨ h.tag = 17 then .seq data
        else .raw h.tag data
      .ok (after, ⟨c⟩)

/-- Modelled from the spec: the external codec's OID reader
(`parse_der_oid`, tag 6), combined with `as_oid_val` as in the source's
`map_res(parse_der_oid, |x| x.as_oid_val())`. -/
def parse_der_oid (i : Bytes) : Res Oid :=
  match readHeader i with
  | .error e => .error e
  | .ok (r, h) =>
    if h.tag = 6 then
      match takeBytes h.len r with
      | .error e => .error e
      | .ok (data, after) => .ok (after, data)
    else .error .BerTypeError

/-- Modelled from the spec: the external codec's `parse_ber_u32`
(INTEGER, tag 2, at most four content bytes). -/
def parse_ber_u32 (i : Bytes) : Res Nat :=
  match readHeader i with
  | .error e => .error e
  | .ok (r, h) =>
    if h.tag = 2 then
      if h.len ≤ 4 then
        match takeBytes h.len r with
        | .error e => .error e
        | .ok (data, after) => .ok (after, beNat data)
      else .error .IntegerTooLarge
    else .error .BerTypeError

/-- Modelled from the spec: the external codec's OCTET STRING reader
(tag 4), combined with `as_slice` as in
`map_res(parse_der_octetstring, |x| x.as_slice())`. -/
def parse_der_octetstring (i : Bytes) : Res Bytes :=
  match readHeader i with
  | .error e => .error e
  | .ok (r, h) =>
    if h.tag = 4 then
      match takeBytes h.len r with
      | .error e => .error e
      | .ok (data, after) => .ok (after, data)
    else .error .BerTypeError

/-- `BitStringObject`: the data bytes of a BIT STRING (the leading
unused-bits octet is stripped by the codec; padding is retained as
provided, spec section 4.3). -/
structure BitStringObject where
  data : Bytes
deriving DecidableEq, Repr

/-- Modelled from the spec: the external codec's BIT STRING reader
(tag 3): at least one content byte (the unused-bits count), the rest is
the bit data. -/
def parse_der_bitstring (i : Bytes) : Res BitStringObject :=
  match readHeader i with
  | .error e => .error e
  | .ok (r, h) =>
    if h.tag = 3 then
      match takeBytes h.len r with
      | .error e => .error e
      | .ok (data, after) =>
        match data with
        | [] => .error .InvalidLength
        | _ :: bs => .ok (after, ⟨bs⟩)
    else .error .BerTypeError

/-- Modelled from the spec: `x509_parser::parse_serial` (repository
module not part of the shown source): an arbitrary-precision unsigned
INTEGER; both the exact raw content bytes and the numeric value are
retained (spec section 4.6). -/
def parse_serial (i : Bytes) : Res (Bytes × Nat) :=
  match readHeader i with
  | .error e => .error e
  | .ok (r, h) =>
    if h.tag = 2 then
      match takeBytes h.len r with
      | .error e => .error e
      | .ok (data, after) => .ok (after, (data, beNat data))
    else .error .InvalidSerialNumber

/-- Modelled from the spec: `x509_parser::der_read_critical` (repository
module not part of the shown source): an optional BOOLEAN with default
value `false` (spec section 4.4 and the `Extension` grammar in the
source's doc comment). -/
def der_read_critical (i : Bytes) : Res Bool :=
  match readHeader i with
  | .error _ => .ok (i, false)
  | .ok (r, h) =>
    if h.tag = 1 then
      if h.len = 1 then
        match takeBytes 1 r with
        | .error e => .error e
        | .ok (data, after) => .ok (after, decide (data ≠ [0]))
      else .error .InvalidLength
    else .ok (i, false)

/-- The timestamp type produced by the external time primitive; a
comparable value counted in whole seconds.
Modelled from the spec: section 6, "parses UTCTime/GeneralizedTime
bytes into a comparable timestamp type". -/
abbrev ASN1Time := Int

/-- Modelled from the spec: `ASN1Time::from_der` of the repository's
`time` module (not part of the shown source): a UTCTime (tag 23) or
GeneralizedTime (tag 24) element; the byte-to-timestamp conversion is
the external collaborator's and is modelled as an arbitrary injection
of the content bytes. -/
def ASN1Time.from_der (i : Bytes) : Res ASN1Time :=
  match readHeader i with
  | .error _ => .error .InvalidDate
  | .ok (r, h) =>
    if h.tag = 23 ∨ h.tag = 24 then
      match takeBytes h.len r with
      | .error _ => .error .InvalidDate
      | .ok (data, after) => .ok (after, (beNat data : Int))
    else .error .InvalidDate

/-- Modelled from the spec: `ASN1Time::from_der_opt` — the optional
variant; absence of a time element is not an error and consumes
nothing. -/
def ASN1Time.from_der_opt (i : Bytes) : Res (Option ASN1Time) :=
  match ASN1Time.from_der i with
  | .error _ => .ok (i, none)
  | .ok (r, t) => .ok (r, some t)

/-- Modelled from the spec: the subtraction of the external time
primitive, "supports subtraction yielding a duration" (section 6); the
result is absent when the difference would be negative.  Durations are
non-negative second counts. -/
def ASN1Time.sub (a b : ASN1Time) : Option Nat :=
  if b ≤ a then some (a - b).toNat else none

/-- Modelled from the spec: `parse_ber_sequence_defined_g` of the
external codec: reads a header, requires the SEQUENCE tag number (16),
carves out exactly `len` content bytes, applies `f` to them, discards
whatever `f` left unconsumed, and returns the bytes after the element. -/
def parse_ber_sequence_defined_g {α : Type} (f : Hdr → Bytes → Res α) (i : Bytes) : Res α :=
  match readHeader i with
  | .error e => .error e
  | .ok (r, h) =>
    if h.tag = 16 then
      match takeBytes h.len r with
      | .error e => .error e
      | .ok (data, after) =>
        match f h data with
        | .error e => .error e
        | .ok (_, v) => .ok (after, v)
    else .error .BerTypeError

/-- Modelled from the spec: `parse_ber_set_defined_g` (SET, tag 17). -/
def parse_ber_set_defined_g {α : Type} (f : Hdr → Bytes → Res α) (i : Bytes) : Res α :=
  match readHeader i with
  | .error e => .error e
  | .ok (r, h) =>
    if h.tag = 17 then
      match takeBytes h.len r with
      | .error e => .error e
      | .ok (data, after) =>
        match f h data with
        | .error e => .error e
        | .ok (_, v) => .ok (after, v)
    else .error .BerTypeError

/-- `X509Version(pub u32)`. -/
structure X509Version where
  v : Nat
deriving DecidableEq, Repr

/-- `X509Version::V1 = 0`. -/
def X509Version.V1 : X509Version := ⟨0⟩

/-- `X509Version::from_der`: `[0] EXPLICIT Version DEFAULT v1`.  A
header is read; if its tag number is 0 the wrapped INTEGER is parsed,
otherwise `V1` is returned and the original input is handed back
untouched. -/
def X509Version.from_der (i : Bytes) : Res X509Version :=
  match readHeader i with
  | .error _ => .error .InvalidVersion
  | .ok (rem, hdr) =>
    if hdr.tag = 0 then
      match parse_ber_u32 rem with
      | .error _ => .error .InvalidVersion
      | .ok (r, n) => .ok (r, ⟨n⟩)
    else .ok (i, X509Version.V1)

/-- Outcome of a Rust function that can also panic: `panicked` marks a
run that aborts the process (out-of-bounds slice index). -/
inductive PRes (α : Type) where
  | ok (rem : Bytes) (v : α)
  | err (e : Err)
  | panicked
deriving DecidableEq, Repr

/-- `X509Version::from_der_required` (the CSR version decoder).  In the
non-`[0]` branch the source evaluates `&rem[1..]`, which panics when
`rem` is empty; the `panicked` outcome models exactly that indexing. -/
def X509Version.from_der_required (i : Bytes) : PRes X509Version :=
  match readHeader i with
  | .error _ => .err .InvalidVersion
  | .ok (rem, hdr) =>
    if hdr.tag = 0 then
      match parse_ber_u32 rem with
      | .error _ => .err .InvalidVersion
      | .ok (r, n) => .ok r ⟨n⟩
    else
      if rem.length < 1 then .panicked
      else .ok (rem.drop 1) X509Version.V1

/-- `AlgorithmIdentifier { algorithm, parameters }`. -/
structure AlgorithmIdentifier where
  algorithm : Oid
  parameters : Option DerObject
deriving DecidableEq, Repr

/-- `AlgorithmIdentifier::from_der`: SEQUENCE of an OID and an optional
trailing ANY (`opt(complete(parse_der))`, which absorbs errors into
absence). -/
def AlgorithmIdentifier.from_der (i : Bytes) : Res AlgorithmIdentifier :=
  parse_ber_sequence_defined_g (fun _ d =>
    match parse_der_oid d with
    | .error _ => .error .InvalidAlgorithmIdentifier
    | .ok (d1, alg) =>
      match parse_der d1 with
      | .error _ => .ok (d1, ⟨alg, none⟩)
      | .ok (d2, o) => .ok (d2, ⟨alg, some o⟩)) i

/-- `AttributeTypeAndValue { attr_type, attr_value }`. -/
structure AttributeTypeAndValue where
  attr_type : Oid
  attr_value : DerObject
deriving DecidableEq, Repr

/-- Modelled from the spec: `x509_parser::parse_attribute_value`
(repository module not part of the shown source): "reading an OID then
an ANY value" (section 4.2) — the ANY reader. -/
def parse_attribute_value (i : Bytes) : Res DerObject := parse_der i

/-- `AttributeTypeAndValue::from_der`. -/
def AttributeTypeAndValue.from_der (i : Bytes) : Res AttributeTypeAndValue :=
  parse_ber_sequence_defined_g (fun _ d =>
    match parse_der_oid d with
    | .error _ => .error .InvalidX509Name
    | .ok (d1, t) =>
      match parse_attribute_value d1 with
      | .error _ => .error .InvalidX509Name
      | .ok (d2, v) => .ok (d2, ⟨t, v⟩)) i

/-- `RelativeDistinguishedName`: a SET of one or more attributes. -/
structure RelativeDistinguishedName where
  set : List AttributeTypeAndValue
deriving DecidableEq, Repr

/-- `RelativeDistinguishedName::from_der`. -/
def RelativeDistinguishedName.from_der (i : Bytes) : Res RelativeDistinguishedName :=
  parse_ber_set_defined_g (fun _ d =>
    match many1 AttributeTypeAndValue.from_der d with
    | .error e => .error e
    | .ok (d1, s) => .ok (d1, ⟨s⟩)) i

/-- `X509Name { rdn_seq, raw }`. -/
structure X509Name where
  rdn_seq : List RelativeDistinguishedName
  raw : Bytes
deriving DecidableEq, Repr

/-- `X509Name::from_der`: SEQUENCE of zero or more RDNs, capturing the
exact byte span `start_i[..start_i.offset(i)]`; the pointer offset is
the header length plus the consumed part of the content. -/
def X509Name.from_der (i : Bytes) : Res X509Name :=
  match readHeader i with
  | .error e => .error e
  | .ok (r, h) =>
    if h.tag = 16 then
      match takeBytes h.len r with
      | .error e => .error e
      | .ok (data, after) =>
        match many0 RelativeDistinguishedName.from_der data with
        | .error e => .error e
        | .ok (d1, rdns) =>
          let len := (i.length - r.length) + (data.length - d1.length)
          .ok (after, ⟨rdns, i.take len⟩)
    else .error .BerTypeError

/-- `SubjectPublicKeyInfo { algorithm, subject_public_key }`. -/
structure SubjectPublicKeyInfo where
  algorithm : AlgorithmIdentifier
  subject_public_key : BitStringObject
deriving DecidableEq, Repr

/-- `SubjectPublicKeyInfo::from_der`. -/
def SubjectPublicKeyInfo.from_der (i : Bytes) : Res SubjectPublicKeyInfo :=
  parse_ber_sequence_defined_g (fun _ d =>
    match AlgorithmIdentifier.from_der d with
    | .error e => .error e
    | .ok (d1, alg) =>
      match parse_der_bitstring d1 with
      | .error _ => .error .InvalidSPKI
      | .ok (d2, b) => .ok (d2, ⟨alg, b⟩)) i

/-- `Validity { not_before, not_after }`. -/
structure Validity where
  not_before : ASN1Time
  not_after : ASN1Time
deriving DecidableEq, Repr

/-- `Validity::from_der`: two sequential time values. -/
def Validity.from_der (i : Bytes) : Res Validity :=
  parse_ber_sequence_defined_g (fun _ d =>
    match ASN1Time.from_der d with
    | .error e => .error e
    | .ok (d1, nb) =>
      match ASN1Time.from_der d1 with
      | .error e => .error e
      | .ok (d2, na) => .ok (d2, ⟨nb, na⟩)) i

/-- `Validity::is_valid_at`: `time >= self.not_before && time < self.not_after`. -/
def Validity.is_valid_at (v : Validity) (time : ASN1Time) : Bool :=
  decide (v.not_before ≤ time) && decide (time < v.not_after)

/-- `Validity::time_to_expiration`.  The ambient clock (`ASN1Time::now()`)
is passed explicitly as `now`. -/
def Validity.time_to_expiration (v : Validity) (now : ASN1Time) : Option Nat :=
  if ¬ v.is_valid_at now then none
  else ASN1Time.sub v.not_after now

/-- `UniqueIdentifier(BitStringObject)`. -/
structure UniqueIdentifier where
  b : BitStringObject
deriving DecidableEq, Repr

/-- `UniqueIdentifier::parse`: `parse_ber_optional` over an
IMPLICIT-tagged BIT STRING — any failure of the inner parser (missing
header, wrong tag, truncated or empty content) is absorbed into absence
without consuming input. -/
def UniqueIdentifier.parse (i : Bytes) (tagNum : Nat) : Res (Option UniqueIdentifier) :=
  match readHeader i with
  | .error _ => .ok (i, none)
  | .ok (r, h) =>
    if h.tag = tagNum then
      match takeBytes h.len r with
      | .error _ => .ok (i, none)
      | .ok (data, after) =>
        match data with
        | [] => .ok (i, none)
        | _ :: bs => .ok (after, some ⟨⟨bs⟩⟩)
    else .ok (i, none)

/-- `UniqueIdentifier::from_der_issuer`: tag `[1]`. -/
def UniqueIdentifier.from_der_issuer (i : Bytes) : Res (Option UniqueIdentifier) :=
  match UniqueIdentifier.parse i 1 with
  | .error _ => .error .InvalidIssuerUID
  | .ok v => .ok v

/-- `UniqueIdentifier::from_der_subject`: tag `[2]`. -/
def UniqueIdentifier.from_der_subject (i : Bytes) : Res (Option UniqueIdentifier) :=
  match UniqueIdentifier.parse i 2 with
  | .error _ => .error .InvalidSubjectUID
  | .ok v => .ok v

/-- `ParsedExtension`: the dispatch result — either a recognized,
specialized decoding or the `UnsupportedExtension` fallback.  Only one
specialized variant is carried here; the bodies of the specialized
decoders are out of scope (spec section 1). -/
inductive ParsedExtension where
  | UnsupportedExtension
  | BasicConstraints (raw : Bytes)
deriving DecidableEq, Repr

/-- OID 2.5.29.19 (basicConstraints), DER content bytes. -/
def OID_X509_EXT_BASIC_CONSTRAINTS : Oid := [85, 29, 19]

/-- Modelled from the spec: the "fixed registry of known
extension/attribute OIDs" of the dispatch contract (section 4.4),
holding a representative known OID. -/
def knownExtOids : List Oid := [OID_X509_EXT_BASIC_CONSTRAINTS]

/-- Modelled from the spec: `extensions::parser::parse_extension`
(repository module not part of the shown source), per the dispatch
contract of section 4.4: look the OID up in the registry; on a match
run that OID's decoder over the raw value (here: a representative
decoder requiring a SEQUENCE); on no match return the `Unsupported`
variant retaining the raw value unmodified.  As in the source, the
function receives no `critical` flag: its signature is
`parse_extension(i, value, &oid)`. -/
def parse_extension (i : Bytes) (value : Bytes) (oid : Oid) : Res ParsedExtension :=
  if oid ∈ knownExtOids then
    match readHeader value with
    | .error e => .error e
    | .ok (_, h) =>
      if h.tag = 16 then .ok (i, .BasicConstraints value)
      else .error .BerTypeError
  else .ok (i, .UnsupportedExtension)

/-- `X509Extension { oid, critical, value, parsed_extension }`. -/
structure X509Extension where
  oid : Oid
  critical : Bool
  value : Bytes
  parsed_extension : ParsedExtension
deriving DecidableEq, Repr

/-- `X509Extension::from_der`: SEQUENCE of OID, optional `critical`
BOOLEAN and OCTET STRING value, whose content is handed to the dispatch;
any error of the whole parse is rewritten to `InvalidExtensions` by the
trailing `map_err`. -/
def X509Extension.from_der (i : Bytes) : Res X509Extension :=
  match parse_ber_sequence_defined_g (fun _ d =>
    match parse_der_oid d with
    | .error e => .error e
    | .ok (d1, oid) =>
      match der_read_critical d1 with
      | .error e => .error e
      | .ok (d2, critical) =>
        match parse_der_octetstring d2 with
        | .error e => .error e
        | .ok (d3, value) =>
          match parse_extension d3 value oid with
          | .error e => .error e
          | .ok (d4, pe) => .ok (d4, ⟨oid, critical, value, pe⟩)) i with
  | .error _ => .error .InvalidExtensions
  | .ok v => .ok v

/-- The OID-keyed extension mapping, as an association list; insertion
silently overwrites an existing key (the last-wins policy the spec
records for the source, section 9). -/
abbrev ExtMap := List (Oid × X509Extension)

/-- Insert with overwrite-on-duplicate. -/
def extInsert (m : ExtMap) (e : X509Extension) : ExtMap :=
  (m.filter fun p => decide (¬ p.1 = e.oid)) ++ [(e.oid, e)]

/-- Modelled from the spec: `x509_parser::extensions_sequence_to_map`
(repository module not part of the shown source): fold the decoded
extensions into the OID-keyed mapping. -/
def extensions_sequence_to_map (l : List X509Extension) : ExtMap :=
  l.foldl extInsert []

/-- Lookup in the extension mapping. -/
def extGet (m : ExtMap) (oid : Oid) : Option X509Extension :=
  (m.find? fun p => decide (p.1 = oid)).map (·.2)

/-- Modelled from the spec: `x509_parser::parse_extension_sequence`
(repository module not part of the shown source): a SEQUENCE OF
extension. -/
def parse_extension_sequence (i : Bytes) : Res (List X509Extension) :=
  parse_ber_sequence_defined_g (fun _ d => many0 X509Extension.from_der d) i

/-- Modelled from the spec: `x509_parser::parse_extensions` (repository
module not part of the shown source), section 4.6: an optional
EXPLICIT-tagged (`[3]` for certificates, `[0]` for CRLs) SEQUENCE OF
extension converted into the OID-keyed map; absence (no element with
the expected tag number) yields an empty map and consumes nothing,
never an error; a malformed present container is `InvalidExtensions`. -/
def parse_extensions (i : Bytes) (tagNum : Nat) : Res ExtMap :=
  match readHeader i with
  | .error _ => .ok (i, [])
  | .ok (r, h) =>
    if h.tag = tagNum then
      match takeBytes h.len r with
      | .error _ => .error .InvalidExtensions
      | .ok (data, after) =>
        match parse_extension_sequence data with
        | .error _ => .error .InvalidExtensions
        | .ok (_, exts) => .ok (after, extensions_sequence_to_map exts)
    else .ok (i, [])

/-- Modelled from the spec: `x509_parser::parse_signature_value`
(repository module not part of the shown source): the envelope
signature BIT STRING (section 4.8). -/
def parse_signature_value (i : Bytes) : Res BitStringObject :=
  match parse_der_bitstring i with
  | .error _ => .error .InvalidSignatureValue
  | .ok v => .ok v

/-- The fields of a `TbsCertificate` gathered by the sequential field
chain of `TbsCertificate::from_der`, before the raw span is attached. -/
structure TbsFields where
  version : X509Version
  raw_serial : Bytes
  serial : Nat
  signature : AlgorithmIdentifier
  issuer : X509Name
  validity : Validity
  subject : X509Name
  subject_pki : SubjectPublicKeyInfo
  issuer_uid : Option UniqueIdentifier
  subject_uid : Option UniqueIdentifier
  extensions : ExtMap
deriving DecidableEq, Repr

/-- The sequential field chain inside `TbsCertificate::from_der`'s
SEQUENCE closure: each required field either succeeds in order or the
whole chain stops with that field's error. -/
def TbsCertificate.parseFields (i : Bytes) : Res TbsFields :=
  match X509Version.from_der i with
  | .error e => .error e
  | .ok (i1, version) =>
  match parse_serial i1 with
  | .error e => .error e
  | .ok (i2, serial) =>
  match AlgorithmIdentifier.from_der i2 with
  | .error e => .error e
  | .ok (i3, signature) =>
  match X509Name.from_der i3 with
  | .error e => .error e
  | .ok (i4, issuer) =>
  match Validity.from_der i4 with
  | .error e => .error e
  | .ok (i5, validity) =>
  match X509Name.from_der i5 with
  | .error e => .error e
  | .ok (i6, subject) =>
  match SubjectPublicKeyInfo.from_der i6 with
  | .error e => .error e
  | .ok (i7, spki) =>
  match UniqueIdentifier.from_der_issuer i7 with
  | .error e => .error e
  | .ok (i8, iuid) =>
  match UniqueIdentifier.from_der_subject i8 with
  | .error e => .error e
  | .ok (i9, suid) =>
  match parse_extensions i9 3 with
  | .error e => .error e
  | .ok (i10, exts) =>
    .ok (i10, ⟨version, serial.1, serial.2, signature, issuer, validity,
               subject, spki, iuid, suid, exts⟩)

/-- `TbsCertificate` (with the raw byte span and raw serial bytes). -/
structure TbsCertificate where
  version : X509Version
  serial : Nat
  signature : AlgorithmIdentifier
  issuer : X509Name
  validity : Validity
  subject : X509Name
  subject_pki : SubjectPublicKeyInfo
  issuer_uid : Option UniqueIdentifier
  subject_uid : Option UniqueIdentifier
  extensions : ExtMap
  raw : Bytes
  raw_serial : Bytes
deriving DecidableEq, Repr

/-- `TbsCertificate::from_der`: the outer SEQUENCE around
`parseFields`, capturing `raw = &start_i[..start_i.offset(i)]` — the
pointer offset equals the header length plus the consumed part of the
SEQUENCE content. -/
def TbsCertificate.from_der (i : Bytes) : Res TbsCertificate :=
  match readHeader i with
  | .error e => .error e
  | .ok (r, h) =>
    if h.tag = 16 then
      match takeBytes h.len r with
      | .error e => .error e
      | .ok (data, after) =>
        match TbsCertificate.parseFields data with
        | .error e => .error e
        | .ok (d, f) =>
          let len := (i.length - r.length) + (data.length - d.length)
          .ok (after,
            { version := f.version, serial := f.serial,
              signature := f.signature, issuer := f.issuer,
              validity := f.validity, subject := f.subject,
              subject_pki := f.subject_pki, issuer_uid := f.issuer_uid,
              subject_uid := f.subject_uid, extensions := f.extensions,
              raw := i.take len, raw_serial := f.raw_serial })
    else .error .BerTypeError

/-- `X509Certificate { tbs_certificate, signature_algorithm, signature_value }`. -/
structure X509Certificate where
  tbs_certificate : TbsCertificate
  signature_algorithm : AlgorithmIdentifier
  signature_value : BitStringObject
deriving DecidableEq, Repr

/-- `X509Certificate::from_der`: TBS body, then the signature algorithm,
then the signature BIT STRING, inside one outer SEQUENCE. -/
def X509Certificate.from_der (i : Bytes) : Res X509Certificate :=
  parse_ber_sequence_defined_g (fun _ d =>
    match TbsCertificate.from_der d with
    | .error e => .error e
    | .ok (d1, tbs) =>
      match AlgorithmIdentifier.from_der d1 with
      | .error e => .error e
      | .ok (d2, alg) =>
        match parse_signature_value d2 with
        | .error e => .error e
        | .ok (d3, sig) => .ok (d3, ⟨tbs, alg, sig⟩)) i

/-- `RevokedCertificate { user_certificate, revocation_date, extensions, raw_serial }`. -/
structure RevokedCertificate where
  user_certificate : Nat
  revocation_date : ASN1Time
  extensions : ExtMap
  raw_serial : Bytes
deriving DecidableEq, Repr

/-- `RevokedCertificate::from_der`: serial, revocation date, and an
optional per-entry extension sequence (absence yields an empty map). -/
def RevokedCertificate.from_der (i : Bytes) : Res RevokedCertificate :=
  parse_ber_sequence_defined_g (fun _ d =>
    match parse_serial d with
    | .error e => .error e
    | .ok (d1, s) =>
      match ASN1Time.from_der d1 with
      | .error e => .error e
      | .ok (d2, rd) =>
        match parse_extension_sequence d2 with
        | .error _ => .ok (d2, ⟨s.2, rd, [], s.1⟩)
        | .ok (d3, v) => .ok (d3, ⟨s.2, rd, extensions_sequence_to_map v, s.1⟩)) i

/-- Modelled from the spec: `x509_parser::parse_revoked_certificates`
(repository module not part of the shown source), section 4.7: a
SEQUENCE OF SEQUENCE of revocation entries. -/
def parse_revoked_certificates (i : Bytes) : Res (List RevokedCertificate) :=
  parse_ber_sequence_defined_g (fun _ d => many1 RevokedCertificate.from_der d) i

/-- The fields of a `TbsCertList` before the raw span is attached. -/
structure CrlFields where
  version : Option X509Version
  signature : AlgorithmIdentifier
  issuer : X509Name
  this_update : ASN1Time
  next_update : Option ASN1Time
  revoked_certificates : List RevokedCertificate
  extensions : ExtMap
deriving DecidableEq, Repr

/-- The `opt(map(parse_ber_u32, X509Version))` stage of
`TbsCertList::from_der`: a failing version parse becomes absence
without consuming input (the trailing `.or(InvalidVersion)` of the
source can never fire, since `opt` absorbs the error first). -/
def crlOptVersion (i : Bytes) : Bytes × Option X509Version :=
  match parse_ber_u32 i with
  | .error _ => (i, none)
  | .ok (r, n) => (r, some ⟨n⟩)

/-- The `opt(complete(parse_revoked_certificates))` stage: a failing
revoked-certificates parse (the optional field is absent) becomes
absence without consuming input. -/
def crlOptRevoked (i : Bytes) : Bytes × Option (List RevokedCertificate) :=
  match parse_revoked_certificates i with
  | .error _ => (i, none)
  | .ok (r, v) => (r, some v)

/-- The sequential field chain inside `TbsCertList::from_der`'s
SEQUENCE closure; the absent revoked list becomes the empty list via
`unwrap_or_default`. -/
def TbsCertList.parseFields (i : Bytes) : Res CrlFields :=
  let st1 := crlOptVersion i
  match AlgorithmIdentifier.from_der st1.1 with
  | .error e => .error e
  | .ok (i2, signature) =>
  match X509Name.from_der i2 with
  | .error e => .error e
  | .ok (i3, issuer) =>
  match ASN1Time.from_der i3 with
  | .error e => .error e
  | .ok (i4, tu) =>
  match ASN1Time.from_der_opt i4 with
  | .error e => .error e
  | .ok (i5, nu) =>
    let st6 := crlOptRevoked i5
    match parse_extensions st6.1 0 with
    | .error e => .error e
    | .ok (i7, exts) =>
      .ok (i7, ⟨st1.2, signature, issuer, tu, nu, st6.2.getD [], exts⟩)

/-- `TbsCertList` (with the raw byte span). -/
structure TbsCertList where
  version : Option X509Version
  signature : AlgorithmIdentifier
  issuer : X509Name
  this_update : ASN1Time
  next_update : Option ASN1Time
  revoked_certificates : List RevokedCertificate
  extensions : ExtMap
  raw : Bytes
deriving DecidableEq, Repr

/-- `TbsCertList::from_der`: the outer SEQUENCE around its field chain,
capturing the raw byte span like `TbsCertificate::from_der`. -/
def TbsCertList.from_der (i : Bytes) : Res TbsCertList :=
  match readHeader i with
  | .error e => .error e
  | .ok (r, h) =>
    if h.tag = 16 then
      match takeBytes h.len r with
      | .error e => .error e
      | .ok (data, after) =>
        match TbsCertList.parseFields data with
        | .error e => .error e
        | .ok (d, f) =>
          let len := (i.length - r.length) + (data.length - d.length)
          .ok (after,
            { version := f.version, signature := f.signature,
              issuer := f.issuer, this_update := f.this_update,
              next_update := f.next_update,
              revoked_certificates := f.revoked_certificates,
              extensions := f.extensions, raw := i.take len })
    else .error .BerTypeError

/-- One upper-case hexadecimal digit. -/
def hexDigit (n : Nat) : Char :=
  if n < 10 then Char.ofNat (48 + n) else Char.ofNat (55 + n)

/-- Modelled from the spec: `HEXUPPER.encode` of the external
`data_encoding` collaborator — upper-case hexadecimal of the bytes. -/
def hexUpper (b : Bytes) : String :=
  ⟨b.foldr (fun x acc => hexDigit (x / 16 % 16) :: hexDigit (x % 16) :: acc) []⟩

/-- Modelled from the spec: `oid2abbrev` of the repository's `objects`
module (not part of the shown source): the external OID-to-abbreviation
registry, `lookup(oid) -> Option<text>` (section 6).  The entries used
by the source's own `test_x509_name` expectations are included. -/
def oid2abbrev (oid : Oid) : Option String :=
  if oid = [85, 4, 3] then some "CN"
  else if oid = [85, 4, 6] then some "C"
  else if oid = [85, 4, 8] then some "ST"
  else if oid = [85, 4, 10] then some "O"
  else none

/-- Modelled from the spec: the `format!("{:?}", oid)` fallback — "the
OID's textual form" for an OID absent from the registry. -/
def oidDebugString (oid : Oid) : String :=
  "OID(" ++ String.intercalate " " (oid.map toString) ++ ")"

/-- `attribute_value_to_string`: string-typed content as text, anything
else as upper-case hex of the raw bytes (`as_slice` failure becomes
`InvalidX509Name`).  The `_attr_type` parameter of the source is
unused. -/
def attribute_value_to_string (attr : DerObject) : Except Err String :=
  match attr.content with
  | .numericString s => .ok s
  | .printableString s => .ok s
  | .utf8String s => .ok s
  | .ia5String s => .ok s
  | _ =>
    match attr.asSlice with
    | .ok s => .ok (hexUpper s)
    | .error _ => .error .InvalidX509Name

/-- One step of the inner fold of `x509name_to_string`: renders one
attribute as `<abbreviation>=<value>` and joins it to the accumulated
string with `" + "` (unless the accumulator is still empty). -/
def innerStep (acc2 : Except Err String) (attr : AttributeTypeAndValue) : Except Err String :=
  match acc2 with
  | .error e => .error e
  | .ok v2 =>
    match attribute_value_to_string attr.attr_value with
    | .error e => .error e
    | .ok valStr =>
      let abb :=
        match oid2abbrev attr.attr_type with
        | some s => s
        | none => oidDebugString attr.attr_type
      let rdn := abb ++ "=" ++ valStr
      .ok (if v2.length = 0 then rdn else v2 ++ " + " ++ rdn)

/-- One step of the outer fold of `x509name_to_string`: renders one RDN
and joins it to the accumulated string with `", "` (unless the
accumulator is still empty). -/
def outerStep (acc : Except Err String) (rdn : RelativeDistinguishedName) : Except Err String :=
  match acc with
  | .error e => .error e
  | .ok v =>
    match rdn.set.foldl innerStep (.ok "") with
    | .error e => .error e
    | .ok s => .ok (if v.length = 0 then s else v ++ ", " ++ s)

/-- `x509name_to_string`: the double fold of the source. -/
def x509name_to_string (rdn_seq : List RelativeDistinguishedName) : Except Err String :=
  rdn_seq.foldl outerStep (.ok "")

/-- The `Display` implementation for `X509Name`: infallible rendering,
with the fixed placeholder on an inner conversion error. -/
def displayX509Name (n : X509Name) : String :=
  match x509name_to_string n.rdn_seq with
  | .ok o => o
  | .error _ => "<X509Error: Invalid X.509 name>"

/-- Stated from the spec's words (section 4.2), for comparison with the
source's fold: join a list of rendered parts with a separator. -/
def specJoin (sep : String) : List String → String
  | [] => ""
  | [x] => x
  | x :: y :: xs => x ++ sep ++ specJoin sep (y :: xs)

/-- Stated from the spec's words (section 4.2): one attribute rendered
as `<abbreviation>=<value>` (total; the error case, unreachable under
the hypotheses of the theorem using it, renders as the empty string). -/
def renderAttrStr (a : AttributeTypeAndValue) : String :=
  match attribute_value_to_string a.attr_value with
  | .error _ => ""
  | .ok valStr =>
    (match oid2abbrev a.attr_type with
     | some s => s
     | none => oidDebugString a.attr_type) ++ "=" ++ valStr

/-- Stated from the spec's words (section 4.2): RDNs joined with `", "`
in sequence order, attributes within an RDN joined with `" + "`. -/
def specRender (rdn_seq : List RelativeDistinguishedName) : String :=
  specJoin ", " (rdn_seq.map fun r => specJoin " + " (r.set.map renderAttrStr))

/-! ## Concrete inputs used by witnesses and counterexamples -/

/-- A complete DER certificate: serial 1, algorithm OID 1.2.3, empty
issuer and subject names, a validity pair, a minimal subject public key
info, and one extension with the unknown OID 1.2.9 marked critical. -/
def certBytes : Bytes :=
  [48, 59,
    48, 48,
      2, 1, 1,
      48, 4, 6, 2, 42, 3,
      48, 0,
      48, 6, 23, 1, 48, 23, 1, 49,
      48, 0,
      48, 9, 48, 4, 6, 2, 42, 3, 3, 1, 0,
      163, 14, 48, 12, 48, 10, 6, 2, 42, 9, 1, 1, 255, 4, 1, 170,
    48, 4, 6, 2, 42, 3,
    3, 1, 0]

/-- The signature-algorithm value appearing in `certBytes`. -/
def algW : AlgorithmIdentifier := { algorithm := [42, 3], parameters := none }

/-- The critical, unrecognized extension appearing in `certBytes`. -/
def extW : X509Extension :=
  { oid := [42, 9], critical := true, value := [170],
    parsed_extension := .UnsupportedExtension }

/-- The TBS fields of `certBytes` as gathered by the field chain. -/
def fldsW : TbsFields :=
  { version := ⟨0⟩, raw_serial := [1], serial := 1, signature := algW,
    issuer := { rdn_seq := [], raw := [48, 0] },
    validity := { not_before := 48, not_after := 49 },
    subject := { rdn_seq := [], raw := [48, 0] },
    subject_pki := { algorithm := algW, subject_public_key := ⟨[]⟩ },
    issuer_uid := none, subject_uid := none,
    extensions := [([42, 9], extW)] }

/-- The decoded certificate of `certBytes`. -/
def certW : X509Certificate :=
  { tbs_certificate :=
      { version := ⟨0⟩, serial := 1, signature := algW,
        issuer := { rdn_seq := [], raw := [48, 0] },
        validity := { not_before := 48, not_after := 49 },
        subject := { rdn_seq := [], raw := [48, 0] },
        subject_pki := { algorithm := algW, subject_public_key := ⟨[]⟩ },
        issuer_uid := none, subject_uid := none,
        extensions := [([42, 9], extW)],
        raw := certBytes.drop 2 |>.take 50,
        raw_serial := [1] },
    signature_algorithm := algW,
    signature_value := ⟨[]⟩ }

/-! ## Claim theorems -/

/-- Positivity of the truncated difference of two integers. -/
theorem toNat_sub_pos (a b : Int) (h : a < b) : 0 < (b - a).toNat := by
  omega

/-- Claim C3: for every `Validity` with `not_before < not_after` and
every time `t`, `is_valid_at t` holds iff `not_before <= t < not_after`
— a half-open interval: the lower boundary is valid, the upper boundary
and any time strictly before `not_before` are invalid. -/
theorem C3_validity_half_open (nb na t : ASN1Time) (h : nb < na) :
    (Validity.is_valid_at ⟨nb, na⟩ t = true ↔ nb ≤ t ∧ t < na)
    ∧ Validity.is_valid_at ⟨nb, na⟩ nb = true
    ∧ Validity.is_valid_at ⟨nb, na⟩ na = false
    ∧ ∀ t', t' < nb → Validity.is_valid_at ⟨nb, na⟩ t' = false := by
  refine ⟨?_, ?_, ?_, fun t' ht' => ?_⟩ <;>
    simp only [Validity.is_valid_at, Bool.and_eq_true, decide_eq_true_eq,
      Bool.and_eq_false_iff, decide_eq_false_iff_not]
  · exact ⟨le_refl nb, h⟩
  · exact Or.inr (lt_irrefl na)
  · exact Or.inl (not_le.mpr ht')

/-- Witness for C3 at a concrete validity interval. -/
theorem C3_validity_half_open_witness :
    (Validity.is_valid_at ⟨10, 20⟩ 15 = true ↔ (10 : Int) ≤ 15 ∧ (15 : Int) < 20)
    ∧ Validity.is_valid_at ⟨10, 20⟩ 10 = true
    ∧ Validity.is_valid_at ⟨10, 20⟩ 20 = false
    ∧ ∀ t', t' < 10 → Validity.is_valid_at ⟨10, 20⟩ t' = false :=
  C3_validity_half_open 10 20 15 (by decide)

/-- Claim C8: `time_to_expiration` returns a positive duration exactly
when `is_valid_at now` holds, and returns nothing otherwise — including
when `now` is still before `not_before`. -/
theorem C8_time_to_expiration (v : Validity) (now : ASN1Time) :
    (v.time_to_expiration now = none ↔ v.is_valid_at now = false)
    ∧ (∀ d, v.time_to_expiration now = some d → 0 < d ∧ v.is_valid_at now = true)
    ∧ (now < v.not_before → v.time_to_expiration now = none) := by
  obtain ⟨nb, na⟩ := v
  by_cases hval : Validity.is_valid_at ⟨nb, na⟩ now = true
  · have hpair : nb ≤ now ∧ now < na := by
      simpa only [Validity.is_valid_at, Bool.and_eq_true, decide_eq_true_eq]
        using hval
    have hsub : Validity.time_to_expiration ⟨nb, na⟩ now = some (na - now).toNat := by
      simp [Validity.time_to_expiration, hval, ASN1Time.sub, le_of_lt hpair.2]
    refine ⟨?_, ?_, ?_⟩
    · simp [hsub, hval]
    · intro d hd
      rw [hsub] at hd
      have hd' : d = (na - now).toNat := (Option.some_inj.mp hd).symm
      subst hd'
      exact ⟨toNat_sub_pos now na hpair.2, hval⟩
    · intro hbefore
      exact absurd hpair.1 (not_le.mpr hbefore)
  · have hnone : Validity.time_to_expiration ⟨nb, na⟩ now = none := by
      simp [Validity.time_to_expiration, hval]
    refine ⟨?_, ?_, ?_⟩
    · simp [hnone, hval]
    · intro d hd
      rw [hnone] at hd
      exact absurd hd (by simp)
    · intro _
      exact hnone

/-- Witness for C8: an expired interval, a valid one, and one that is
not yet valid, all at concrete times. -/
theorem C8_time_to_expiration_witness :
    Validity.time_to_expiration ⟨0, 10⟩ (-5) = none
    ∧ (Validity.time_to_expiration ⟨0, 10⟩ 4 = some 6 → 0 < 6 ∧ Validity.is_valid_at ⟨0, 10⟩ 4 = true)
    ∧ Validity.time_to_expiration ⟨0, 10⟩ 12 = none :=
  ⟨(C8_time_to_expiration ⟨0, 10⟩ (-5)).2.2 (by decide),
   fun h => (C8_time_to_expiration ⟨0, 10⟩ 4).2.1 6 h,
   (C8_time_to_expiration ⟨0, 10⟩ 12).1.mpr (by decide)⟩

/-- Claim C10: the claim asserts `from_der_required` never panics; the
code slips — on the input `[0x05, 0x00]` the header read succeeds and
consumes the whole input, the tag is not 0, and the `&rem[1..]` index
is out of bounds (remainder of length 0), i.e. the run panics. -/
theorem C10_version_required_panics :
    readHeader [5, 0] = .ok ([], ⟨0, false, 5, 0⟩)
    ∧ X509Version.from_der_required [5, 0] = .panicked :=
  ⟨rfl, rfl⟩

/-- Claim C6: rendering an `X509Name` is total; when the inner string
conversion fails the display function produces the fixed placeholder,
and when it succeeds the display function returns its string. -/
theorem C6_display_infallible (n : X509Name) :
    (∀ e, x509name_to_string n.rdn_seq = .error e →
      displayX509Name n = "<X509Error: Invalid X.509 name>")
    ∧ (∀ s, x509name_to_string n.rdn_seq = .ok s → displayX509Name n = s) := by
  constructor
  · intro e he
    simp [displayX509Name, he]
  · intro s hs
    simp [displayX509Name, hs]

/-- A name whose single attribute value has constructed (sequence)
content, so that the inner string conversion fails. -/
def badName : X509Name :=
  ⟨[⟨[⟨[85, 4, 3], ⟨.seq []⟩⟩]⟩], []⟩

/-- Witness for C6: the error branch is reachable and degrades to the
placeholder on a concrete name. -/
theorem C6_display_infallible_witness :
    displayX509Name badName = "<X509Error: Invalid X.509 name>" :=
  (C6_display_infallible badName).1 .InvalidX509Name rfl

/-- Counterexample to claim C4 as stated: at the concrete input
`[0x30, 3, 2, 1, 5]` the required OID field of `X509Extension::from_der`
fails with the type error of the OID reader, but the enclosing
structure reports `InvalidExtensions` — the error reaching the caller
is not the error the failing field produced. -/
theorem C4_counterexample :
    parse_der_oid [2, 1, 5] = .error .BerTypeError
    ∧ X509Extension.from_der [48, 3, 2, 1, 5] = .error .InvalidExtensions
    ∧ Err.BerTypeError ≠ Err.InvalidExtensions :=
  ⟨rfl, rfl, by decide⟩

/-- Claim C4 (amended): an error at a required positional field aborts
the whole enclosing structure and no partial object is returned —
`TbsCertificate::from_der` propagates the failing field's error
unchanged, while `X509Extension::from_der` normalizes any inner error
to `InvalidExtensions`; absence of an optional field (no matching tag)
is never an error. -/
theorem C4_abort_propagation_optional :
    (∀ (i r1 data after i1 i2 : Bytes) (h0 : Hdr) (v : X509Version)
       (s : Bytes × Nat) (e : Err),
      readHeader i = .ok (r1, h0) → h0.tag = 16 →
      takeBytes h0.len r1 = .ok (data, after) →
      X509Version.from_der data = .ok (i1, v) →
      parse_serial i1 = .ok (i2, s) →
      AlgorithmIdentifier.from_der i2 = .error e →
      TbsCertificate.from_der i = .error e)
    ∧ (∀ (i r1 data after : Bytes) (h0 : Hdr) (e : Err),
      readHeader i = .ok (r1, h0) → h0.tag = 16 →
      takeBytes h0.len r1 = .ok (data, after) →
      parse_der_oid data = .error e →
      X509Extension.from_der i = .error .InvalidExtensions)
    ∧ (∀ (i r : Bytes) (h : Hdr),
      readHeader i = .ok (r, h) → h.tag ≠ 1 →
      UniqueIdentifier.from_der_issuer i = .ok (i, none)) := by
  refine ⟨?_, ?_, ?_⟩
  · intro i r1 data after i1 i2 h0 v s e hh ht htk hv hs ha
    simp [TbsCertificate.from_der, hh, ht, htk, TbsCertificate.parseFields,
          hv, hs, ha]
  · intro i r1 data after h0 e hh ht htk hoid
    simp [X509Extension.from_der, parse_ber_sequence_defined_g, hh, ht, htk, hoid]
  · intro i r h hh htag
    simp [UniqueIdentifier.from_der_issuer, UniqueIdentifier.parse, hh, htag]

/-- Witness for C4 (amended) at concrete inputs: a TBS whose algorithm
identifier field fails with a type error that reaches the caller
unchanged; an extension whose OID field fails and is reported as
`InvalidExtensions`; and an absent optional issuer unique-identifier. -/
theorem C4_abort_propagation_optional_witness :
    TbsCertificate.from_der [48, 6, 2, 1, 1, 2, 1, 7] = .error .BerTypeError
    ∧ X509Extension.from_der [48, 3, 2, 1, 5] = .error .InvalidExtensions
    ∧ UniqueIdentifier.from_der_issuer [2, 1, 1] = .ok ([2, 1, 1], none) :=
  ⟨C4_abort_propagation_optional.1 [48, 6, 2, 1, 1, 2, 1, 7]
      [2, 1, 1, 2, 1, 7] [2, 1, 1, 2, 1, 7] [] [2, 1, 1, 2, 1, 7] [2, 1, 7]
      ⟨0, true, 16, 6⟩ ⟨0⟩ ([1], 1) .BerTypeError rfl rfl rfl rfl rfl rfl,
   C4_abort_propagation_optional.2.1 [48, 3, 2, 1, 5] [2, 1, 5] [2, 1, 5] []
      ⟨0, true, 16, 3⟩ .BerTypeError rfl rfl rfl rfl,
   C4_abort_propagation_optional.2.2 [2, 1, 1] [1] ⟨0, false, 2, 1⟩
      rfl (by decide)⟩

/-! ## Consumption lemmas: every reader's remainder is a suffix of its
input, so the consumed bytes are an initial segment of the buffer. -/

theorem readTagNum_isSuffix (i : Bytes) :
    ∀ (acc : Nat) (r : Bytes) (t : Nat),
      readTagNum i acc = .ok (r, t) → r.IsSuffix i := by
  induction i with
  | nil => intro acc r t h; simp [readTagNum] at h
  | cons b bs ih =>
    intro acc r t h
    by_cases hb : b < 128
    · simp only [readTagNum, if_pos hb, Except.ok.injEq, Prod.mk.injEq] at h
      rw [← h.1]
      exact List.suffix_cons b bs
    · simp only [readTagNum, if_neg hb] at h
      exact (ih _ r t h).trans (List.suffix_cons b bs)

theorem readLength_isSuffix (i r : Bytes) (n : Nat)
    (h : readLength i = .ok (r, n)) : r.IsSuffix i := by
  match i with
  | [] => simp [readLength] at h
  | l :: rest =>
    by_cases h1 : l < 128
    · simp only [readLength, if_pos h1, Except.ok.injEq, Prod.mk.injEq] at h
      rw [← h.1]
      exact List.suffix_cons l rest
    · by_cases h2 : l = 128
      · simp [readLength, if_neg h1, if_pos h2] at h
      · by_cases h3 : rest.length < l - 128
        · simp [readLength, if_neg h1, if_neg h2, if_pos h3] at h
        · simp only [readLength, if_neg h1, if_neg h2, if_neg h3,
            Except.ok.injEq, Prod.mk.injEq] at h
          rw [← h.1]
          exact (List.drop_suffix _ _).trans (List.suffix_cons l rest)

theorem readHeader_isSuffix (i r : Bytes) (h : Hdr)
    (hh : readHeader i = .ok (r, h)) : r.IsSuffix i := by
  match i with
  | [] => simp [readHeader] at hh
  | b :: bs =>
    by_cases htag : b % 32 = 31
    · simp only [readHeader, if_pos htag] at hh
      match e1 : readTagNum bs 0 with
      | .error e => simp only [e1] at hh; exact absurd hh (by simp)
      | .ok (r1, t) =>
        simp only [e1] at hh
        match e2 : readLength r1 with
        | .error e => simp only [e2] at hh; exact absurd hh (by simp)
        | .ok (r2, n) =>
          simp only [e2, Except.ok.injEq, Prod.mk.injEq] at hh
          rw [← hh.1]
          exact ((readLength_isSuffix r1 r2 n e2).trans
            (readTagNum_isSuffix bs 0 r1 t e1)).trans (List.suffix_cons b bs)
    · simp only [readHeader, if_neg htag] at hh
      match e2 : readLength bs with
      | .error e => simp only [e2] at hh; exact absurd hh (by simp)
      | .ok (r2, n) =>
        simp only [e2, Except.ok.injEq, Prod.mk.injEq] at hh
        rw [← hh.1]
        exact (readLength_isSuffix bs r2 n e2).trans (List.suffix_cons b bs)

/-- A suffix decomposes its list: the bytes before it are the initial
segment of the corresponding length. -/
theorem suffix_decomp (r i : Bytes) (h : r.IsSuffix i) :
    i.take (i.length - r.length) ++ r = i := by
  obtain ⟨p, hp⟩ := h
  subst hp
  simp [List.take_left]

/-- A successful `takeBytes` splits the buffer: content plus remainder
reassemble it and the content has exactly the requested length. -/
theorem takeBytes_ok (n : Nat) (i d a : Bytes)
    (h : takeBytes n i = .ok (d, a)) : d ++ a = i ∧ d.length = n := by
  unfold takeBytes at h
  by_cases hc : i.length < n
  · simp [if_pos hc] at h
  · rw [if_neg hc] at h
    simp only [Except.ok.injEq, Prod.mk.injEq] at h
    rw [← h.1, ← h.2]
    exact ⟨List.take_append_drop n i, by simp [List.length_take]; omega⟩

/-- Counterexample to claim C7 as stated: the input `[0x00, 0x00]`
starts with an end-of-contents element — tag number 0 of the universal
class, not the `[0]` context tag — yet the decoder does not default to
`V1` with zero consumption: it enters the tagged branch (the source
matches on the tag number only) and fails with `InvalidVersion`. -/
theorem C7_counterexample :
    readHeader [0, 0] = .ok ([], ⟨0, false, 0, 0⟩)
    ∧ (0 : Nat) ≠ 2
    ∧ X509Version.from_der [0, 0] = .error .InvalidVersion
    ∧ X509Version.from_der [0, 0] ≠ .ok ([0, 0], X509Version.V1) := by
  refine ⟨rfl, by decide, rfl, ?_⟩
  intro hc
  rw [show X509Version.from_der [0, 0] = .error .InvalidVersion from rfl] at hc
  exact Except.noConfusion hc

/-- Claim C7 (amended): when the first element's tag *number* (the
source inspects only the tag number, not the class) is not 0, the
version decoder returns `V1` and hands back the original input,
consuming zero bytes; when the tag number is 0, the wrapped INTEGER is
decoded as the version, and its failure is `InvalidVersion`. -/
theorem C7_version_default :
    (∀ (i r : Bytes) (h : Hdr),
      readHeader i = .ok (r, h) → h.tag ≠ 0 →
      X509Version.from_der i = .ok (i, X509Version.V1))
    ∧ (∀ (i r r2 : Bytes) (h : Hdr) (n : Nat),
      readHeader i = .ok (r, h) → h.tag = 0 →
      parse_ber_u32 r = .ok (r2, n) →
      X509Version.from_der i = .ok (r2, ⟨n⟩))
    ∧ (∀ (i r : Bytes) (h : Hdr) (e : Err),
      readHeader i = .ok (r, h) → h.tag = 0 →
      parse_ber_u32 r = .error e →
      X509Version.from_der i = .error .InvalidVersion) := by
  refine ⟨?_, ?_, ?_⟩
  · intro i r h hh htag
    simp [X509Version.from_der, hh, htag]
  · intro i r r2 h n hh htag hu
    simp [X509Version.from_der, hh, htag, hu]
  · intro i r h e hh htag hu
    simp [X509Version.from_der, hh, htag, hu]

/-- Witness for C7 (amended) at concrete inputs: an INTEGER first
element (tag 2) defaults to `V1` without consumption; a `[0]`-tagged
INTEGER decodes to the wrapped value; a `[0]` tag with truncated
content fails with `InvalidVersion`. -/
theorem C7_version_default_witness :
    X509Version.from_der [2, 1, 1] = .ok ([2, 1, 1], X509Version.V1)
    ∧ X509Version.from_der [160, 3, 2, 1, 2] = .ok ([], ⟨2⟩)
    ∧ X509Version.from_der [160, 0] = .error .InvalidVersion :=
  ⟨C7_version_default.1 [2, 1, 1] [1] ⟨0, false, 2, 1⟩ rfl (by decide),
   C7_version_default.2.1 [160, 3, 2, 1, 2] [2, 1, 2] [] ⟨2, true, 0, 3⟩ 2
      rfl rfl rfl,
   C7_version_default.2.2 [160, 0] [] ⟨2, true, 0, 0⟩ .Incomplete
      rfl rfl rfl⟩

/-- Counterexample to claim C2 as stated: the concrete certificate
`certBytes` carries an extension whose OID `1.2.9` is not in the
registry and whose `critical` flag is true, yet both the extension
parse and the whole certificate parse succeed — no hard error is
raised for a critical unrecognized extension. -/
theorem C2_counterexample :
    extW.critical = true
    ∧ extW.oid ∉ knownExtOids
    ∧ X509Extension.from_der [48, 10, 6, 2, 42, 9, 1, 1, 255, 4, 1, 170] = .ok ([], extW)
    ∧ X509Certificate.from_der certBytes = .ok ([], certW)
    ∧ extGet certW.tbs_certificate.extensions [42, 9] = some extW :=
  ⟨rfl, by decide, rfl, rfl, rfl⟩

/-- Claim C2 (amended): an extension whose OID is not in the registry
of known extension OIDs parses successfully into the `Unsupported`
variant with the raw value bytes preserved unchanged (the `value` field
is the OCTET STRING content, a contiguous sub-slice of the input), for
any value of the `critical` flag — including `true`; the enclosing
certificate parse therefore also succeeds, leaving the critical flag to
the consumer. -/
theorem C2_unknown_oid_unsupported :
    (∀ (i r d d1 d2 d3 after : Bytes) (h0 : Hdr) (oid : Oid) (crit : Bool)
       (v : Bytes),
      readHeader i = .ok (r, h0) → h0.tag = 16 →
      takeBytes h0.len r = .ok (d, after) →
      parse_der_oid d = .ok (d1, oid) →
      oid ∉ knownExtOids →
      der_read_critical d1 = .ok (d2, crit) →
      parse_der_octetstring d2 = .ok (d3, v) →
      X509Extension.from_der i = .ok (after, ⟨oid, crit, v, .UnsupportedExtension⟩))
    ∧ (∀ (i d3 v : Bytes), parse_der_octetstring i = .ok (d3, v) →
      ∃ pre, i = pre ++ v ++ d3) := by
  constructor
  · intro i r d d1 d2 d3 after h0 oid crit v hh ht htk hoid hnot hcrit hoct
    simp [X509Extension.from_der, parse_ber_sequence_defined_g, hh, ht, htk,
          hoid, hcrit, hoct, parse_extension, hnot]
  · intro i d3 v h
    unfold parse_der_octetstring at h
    match e1 : readHeader i with
    | .error e => simp only [e1] at h; exact absurd h (by simp)
    | .ok (r, hd) =>
      simp only [e1] at h
      by_cases ht : hd.tag = 4
      · rw [if_pos ht] at h
        match e2 : takeBytes hd.len r with
        | .error e => simp only [e2] at h; exact absurd h (by simp)
        | .ok (dd, aa) =>
          simp only [e2, Except.ok.injEq, Prod.mk.injEq] at h
          obtain ⟨h3, h4⟩ := h
          obtain ⟨p, hp⟩ := readHeader_isSuffix i r hd e1
          refine ⟨p, ?_⟩
          rw [← hp, ← (takeBytes_ok hd.len r dd aa e2).1, h3, h4,
              List.append_assoc]
      · rw [if_neg ht] at h
        exact absurd h (by simp)

/-- Witness for C2 (amended): the concrete critical extension of
`certBytes` parses to `Unsupported` with its value slice intact. -/
theorem C2_unknown_oid_unsupported_witness :
    X509Extension.from_der [48, 10, 6, 2, 42, 9, 1, 1, 255, 4, 1, 170] =
      .ok ([], ⟨[42, 9], true, [170], .UnsupportedExtension⟩)
    ∧ ∃ pre, ([4, 1, 170] : Bytes) = pre ++ [170] ++ [] :=
  ⟨C2_unknown_oid_unsupported.1 [48, 10, 6, 2, 42, 9, 1, 1, 255, 4, 1, 170]
      [6, 2, 42, 9, 1, 1, 255, 4, 1, 170] [6, 2, 42, 9, 1, 1, 255, 4, 1, 170]
      [1, 1, 255, 4, 1, 170] [4, 1, 170] [] [] ⟨0, true, 16, 10⟩ [42, 9] true
      [170] rfl rfl rfl rfl (by decide) rfl rfl,
   C2_unknown_oid_unsupported.2 [4, 1, 170] [] [170] rfl⟩

/-- Claim C9: for a CRL whose optional `revokedCertificates` SEQUENCE
is omitted (the parser for it fails at its position, consuming
nothing) while every other field is well-formed, `TbsCertList::from_der`
succeeds — the absent field is not an error — and the resulting
revoked-certificates list is empty. -/
theorem C9_crl_absent_revoked
    (i r1 data after i1 i2 i3 i4 i5 i7 : Bytes) (h0 : Hdr)
    (ver : Option X509Version) (sigAlg : AlgorithmIdentifier)
    (issuer : X509Name) (tu : ASN1Time) (nu : Option ASN1Time)
    (exts : ExtMap) (e : Err)
    (hh : readHeader i = .ok (r1, h0)) (ht : h0.tag = 16)
    (htk : takeBytes h0.len r1 = .ok (data, after))
    (hv : crlOptVersion data = (i1, ver))
    (ha : AlgorithmIdentifier.from_der i1 = .ok (i2, sigAlg))
    (hn : X509Name.from_der i2 = .ok (i3, issuer))
    (htu : ASN1Time.from_der i3 = .ok (i4, tu))
    (hnu : ASN1Time.from_der_opt i4 = .ok (i5, nu))
    (hrev : parse_revoked_certificates i5 = .error e)
    (hx : parse_extensions i5 0 = .ok (i7, exts)) :
    TbsCertList.from_der i =
      .ok (after,
        { version := ver, signature := sigAlg, issuer := issuer,
          this_update := tu, next_update := nu,
          revoked_certificates := [], extensions := exts,
          raw := i.take ((i.length - r1.length) + (data.length - i7.length)) }) := by
  simp [TbsCertList.from_der, hh, ht, htk, TbsCertList.parseFields, hv, ha,
        hn, htu, hnu, crlOptRevoked, hrev, hx]

/-- A minimal CRL TBS body: algorithm, empty issuer, one update time;
version, next update, revoked certificates and extensions all absent. -/
def crlBytes : Bytes := [48, 11, 48, 4, 6, 2, 42, 3, 48, 0, 23, 1, 48]

/-- Witness for C9 at the concrete CRL body `crlBytes`. -/
theorem C9_crl_absent_revoked_witness :
    TbsCertList.from_der crlBytes =
      .ok ([],
        { version := none, signature := algW,
          issuer := ⟨[], [48, 0]⟩, this_update := 48, next_update := none,
          revoked_certificates := [], extensions := [],
          raw := crlBytes.take 13 }) := by
  exact C9_crl_absent_revoked crlBytes
    [48, 4, 6, 2, 42, 3, 48, 0, 23, 1, 48] [48, 4, 6, 2, 42, 3, 48, 0, 23, 1, 48]
    [] [48, 4, 6, 2, 42, 3, 48, 0, 23, 1, 48] [48, 0, 23, 1, 48] [23, 1, 48]
    [] [] [] ⟨0, true, 16, 11⟩ none algW ⟨[], [48, 0]⟩ 48 none []
    .Incomplete rfl rfl rfl rfl rfl rfl rfl rfl rfl rfl

/-! ## Name formatting: the folds of `x509name_to_string` agree with
the spec's joining description. -/

/-- The accumulator-threading join performed by the source's folds:
append each part, separated by `sep` unless the accumulator is still
empty. -/
def joinAcc (sep acc : String) (parts : List String) : String :=
  parts.foldl (fun v r => if v.length = 0 then r else v ++ sep ++ r) acc

theorem specJoin_cons_append (sep a b : String) (qs : List String) :
    specJoin sep ((a ++ b) :: qs) = a ++ specJoin sep (b :: qs) := by
  cases qs with
  | nil => simp [specJoin]
  | cons q qs => simp [specJoin, String.append_assoc]

theorem joinAcc_cons (sep : String) :
    ∀ (ps : List String) (v : String), 0 < v.length →
      joinAcc sep v ps = specJoin sep (v :: ps) := by
  intro ps
  induction ps with
  | nil => intro v _; simp [joinAcc, specJoin]
  | cons q qs ih =>
    intro v hv
    have hstep : joinAcc sep v (q :: qs) = joinAcc sep (v ++ sep ++ q) qs := by
      unfold joinAcc
      rw [List.foldl_cons, if_neg (by omega)]
    rw [hstep, ih (v ++ sep ++ q) (by simp [String.length_append]; omega),
        specJoin_cons_append sep (v ++ sep) q qs]
    simp [specJoin, String.append_assoc]

theorem joinAcc_nil_start (sep : String) (parts : List String)
    (h : ∀ p ∈ parts, 0 < p.length) :
    joinAcc sep "" parts = specJoin sep parts := by
  cases parts with
  | nil => rfl
  | cons p ps =>
    have hstep : joinAcc sep "" (p :: ps) = joinAcc sep p ps := by
      unfold joinAcc
      rw [List.foldl_cons]
      simp
    rw [hstep, joinAcc_cons sep ps p (h p (by simp))]

/-- A rendered attribute is never the empty string (it contains the
`"="` between abbreviation and value). -/
theorem renderAttr_pos (a : AttributeTypeAndValue) (s : String)
    (h : attribute_value_to_string a.attr_value = .ok s) :
    0 < (renderAttrStr a).length := by
  have h1 : ("=" : String).length = 1 := rfl
  simp [renderAttrStr, h, String.length_append, h1]

theorem specJoin_pos (sep p : String) (ps : List String) (hp : 0 < p.length) :
    0 < (specJoin sep (p :: ps)).length := by
  cases ps with
  | nil => simpa [specJoin] using hp
  | cons q qs =>
    simp [specJoin, String.length_append]
    omega

theorem innerFold (l : List AttributeTypeAndValue) :
    ∀ acc : String,
      (∀ a ∈ l, ∃ s, attribute_value_to_string a.attr_value = .ok s) →
      l.foldl innerStep (.ok acc) = .ok (joinAcc " + " acc (l.map renderAttrStr)) := by
  induction l with
  | nil => intro acc _; simp [joinAcc]
  | cons a as ih =>
    intro acc hall
    obtain ⟨s, hs⟩ := hall a (by simp)
    have hstep : innerStep (.ok acc) a =
        .ok (if acc.length = 0 then renderAttrStr a
             else acc ++ " + " ++ renderAttrStr a) := by
      simp [innerStep, hs, renderAttrStr]
    rw [List.foldl_cons, hstep, ih _ (fun x hx => hall x (by simp [hx]))]
    simp [joinAcc]

theorem outerFold (rdns : List RelativeDistinguishedName) :
    ∀ acc : String,
      (∀ r ∈ rdns, r.set ≠ [] ∧
        ∀ a ∈ r.set, ∃ s, attribute_value_to_string a.attr_value = .ok s) →
      rdns.foldl outerStep (.ok acc) =
        .ok (joinAcc ", " acc
          (rdns.map fun r => specJoin " + " (r.set.map renderAttrStr))) := by
  induction rdns with
  | nil => intro acc _; simp [joinAcc]
  | cons r rs ih =>
    intro acc hall
    obtain ⟨hne, hok⟩ := hall r (by simp)
    have hinner : r.set.foldl innerStep (.ok "") =
        .ok (specJoin " + " (r.set.map renderAttrStr)) := by
      rw [innerFold r.set "" hok, joinAcc_nil_start]
      intro p hp
      obtain ⟨a, ha, rfl⟩ := List.mem_map.mp hp
      obtain ⟨s, hs⟩ := hok a ha
      exact renderAttr_pos a s hs
    have hstep : outerStep (.ok acc) r =
        .ok (if acc.length = 0 then specJoin " + " (r.set.map renderAttrStr)
             else acc ++ ", " ++ specJoin " + " (r.set.map renderAttrStr)) := by
      simp [outerStep, hinner]
    rw [List.foldl_cons, hstep, ih _ (fun x hx => hall x (by simp [hx]))]
    simp [joinAcc]

/-- The first example name of the source's `test_x509_name`: one RDN
with the two CN attributes. -/
def name1 : X509Name :=
  ⟨[⟨[⟨[85, 4, 3], ⟨.printableString "Test1"⟩⟩,
      ⟨[85, 4, 3], ⟨.printableString "Test2"⟩⟩]⟩], []⟩

/-- The four-RDN example name of the source's `test_x509_name`. -/
def name2 : X509Name :=
  ⟨[⟨[⟨[85, 4, 6], ⟨.printableString "FR"⟩⟩]⟩,
    ⟨[⟨[85, 4, 8], ⟨.printableString "Some-State"⟩⟩]⟩,
    ⟨[⟨[85, 4, 10], ⟨.printableString "Internet Widgits Pty Ltd"⟩⟩]⟩,
    ⟨[⟨[85, 4, 3], ⟨.printableString "Test1"⟩⟩,
      ⟨[85, 4, 3], ⟨.printableString "Test2"⟩⟩]⟩], []⟩

/-- Claim C5: name formatting joins RDNs with `", "` in sequence order
and attributes within an RDN with `" + "`, rendering each attribute as
`<abbreviation>=<value>` — string-typed values as text, any other type
as upper-case hex of its raw bytes; and the two example names render
exactly as the claim states. -/
theorem C5_name_formatting :
    (∀ (rdns : List RelativeDistinguishedName),
      (∀ r ∈ rdns, r.set ≠ []) →
      (∀ r ∈ rdns, ∀ a ∈ r.set, ∃ s, attribute_value_to_string a.attr_value = .ok s) →
      x509name_to_string rdns = .ok (specRender rdns))
    ∧ (∀ s, attribute_value_to_string ⟨.printableString s⟩ = .ok s)
    ∧ (∀ t b, attribute_value_to_string ⟨.raw t b⟩ = .ok (hexUpper b))
    ∧ displayX509Name name1 = "CN=Test1 + CN=Test2"
    ∧ displayX509Name name2 =
        "C=FR, ST=Some-State, O=Internet Widgits Pty Ltd, CN=Test1 + CN=Test2" := by
  refine ⟨?_, fun s => rfl, fun t b => rfl, rfl, rfl⟩
  intro rdns h1 h2
  unfold x509name_to_string specRender
  rw [outerFold rdns "" (fun r hr => ⟨h1 r hr, h2 r hr⟩), joinAcc_nil_start]
  intro p hp
  obtain ⟨r, hr, rfl⟩ := List.mem_map.mp hp
  obtain ⟨a, rest, hset⟩ := List.exists_cons_of_ne_nil (h1 r hr)
  obtain ⟨s, hs⟩ := h2 r hr a (by rw [hset]; simp)
  rw [hset, List.map_cons]
  exact specJoin_pos _ _ _ (renderAttr_pos a s hs)

/-- Witness for C5: the general joining law applied to the concrete
one-RDN example name. -/
theorem C5_name_formatting_witness :
    x509name_to_string name1.rdn_seq = .ok (specRender name1.rdn_seq) := by
  refine C5_name_formatting.1 name1.rdn_seq ?_ ?_
  · intro r hr
    simp [name1] at hr
    subst hr
    simp
  · intro r hr a ha
    simp [name1] at hr
    subst hr
    simp at ha
    rcases ha with h | h <;> subst h <;> exact ⟨_, rfl⟩

/-! ## The raw TBS byte span -/

/-- Claim C1: for every valid DER-encoded certificate — formalized as:
the certificate parses and the TBS SEQUENCE content is exactly its
field list (`parseFields` consumes all of it, which holds for every
DER-valid `Certificate`) — the `raw` field of the contained
`TbsCertificate` is byte-for-byte the sub-slice of the original input
that encodes the TBSCertificate field: it equals the TBS header bytes
followed by the entire delegated TBS content, it reassembles with the
bytes after it into the certificate's SEQUENCE content, and it sits
verbatim between the certificate header and the trailing bytes of the
original input — exactly the bytes over which the signature was
computed. -/
theorem C1_tbs_raw_signed_span
    (input r1 certData rest0 r2 tbsData afterT rem : Bytes)
    (h0 hT : Hdr) (cert : X509Certificate) (flds : TbsFields)
    (h : X509Certificate.from_der input = .ok (rem, cert))
    (h1 : readHeader input = .ok (r1, h0))
    (h2 : takeBytes h0.len r1 = .ok (certData, rest0))
    (h3 : readHeader certData = .ok (r2, hT))
    (h4 : takeBytes hT.len r2 = .ok (tbsData, afterT))
    (h5 : TbsCertificate.parseFields tbsData = .ok ([], flds)) :
    cert.tbs_certificate.raw
        = certData.take (certData.length - r2.length) ++ tbsData
    ∧ cert.tbs_certificate.raw ++ afterT = certData
    ∧ input.take (input.length - r1.length)
        ++ cert.tbs_certificate.raw ++ afterT ++ rem = input := by
  by_cases htag0 : h0.tag = 16
  case neg =>
    exfalso
    simp [X509Certificate.from_der, parse_ber_sequence_defined_g, h1, htag0] at h
  by_cases htagT : hT.tag = 16
  case neg =>
    exfalso
    have hTBSe : TbsCertificate.from_der certData = .error .BerTypeError := by
      simp [TbsCertificate.from_der, h3, htagT]
    simp [X509Certificate.from_der, parse_ber_sequence_defined_g, h1, htag0,
          h2, hTBSe] at h
  -- the decomposition facts
  obtain ⟨fc, fcl⟩ := takeBytes_ok h0.len r1 certData rest0 h2
  obtain ⟨ft, ftl⟩ := takeBytes_ok hT.len r2 tbsData afterT h4
  have fP : certData.take (certData.length - r2.length) ++ r2 = certData :=
    suffix_decomp r2 certData (readHeader_isSuffix certData r2 hT h3)
  have fI : input.take (input.length - r1.length) ++ r1 = input :=
    suffix_decomp r1 input (readHeader_isSuffix input r1 h0 h1)
  have hdropC : certData.drop (certData.length - r2.length) = r2 := by
    conv_lhs => rw [← fP]
    rw [List.length_append, Nat.add_sub_cancel, List.drop_left]
  have hrawA : certData.take ((certData.length - r2.length) + tbsData.length)
      = certData.take (certData.length - r2.length) ++ tbsData := by
    rw [List.take_add]
    congr 1
    rw [hdropC, ← ft, List.take_left]
  -- the TBS parse of the delegated slice
  have hTBS : TbsCertificate.from_der certData =
      .ok (afterT,
        { version := flds.version, serial := flds.serial,
          signature := flds.signature, issuer := flds.issuer,
          validity := flds.validity, subject := flds.subject,
          subject_pki := flds.subject_pki, issuer_uid := flds.issuer_uid,
          subject_uid := flds.subject_uid, extensions := flds.extensions,
          raw := certData.take ((certData.length - r2.length) + tbsData.length),
          raw_serial := flds.raw_serial }) := by
    simp [TbsCertificate.from_der, h3, htagT, h4, h5]
  -- unfold the certificate parse around it
  simp only [X509Certificate.from_der, parse_ber_sequence_defined_g, h1,
    htag0, if_true, h2, hTBS] at h
  match hA : AlgorithmIdentifier.from_der afterT with
  | .error e =>
    simp only [hA] at h
    exact absurd h (by simp)
  | .ok (d2, alg) =>
    simp only [hA] at h
    match hS : parse_signature_value d2 with
    | .error e =>
      simp only [hS] at h
      exact absurd h (by simp)
    | .ok (d3, sig) =>
      simp only [hS, Except.ok.injEq, Prod.mk.injEq] at h
      obtain ⟨hrem, hcert⟩ := h
      subst hrem
      have hraw : cert.tbs_certificate.raw
          = certData.take ((certData.length - r2.length) + tbsData.length) := by
        rw [← hcert]
      refine ⟨?_, ?_, ?_⟩
      · rw [hraw]
        exact hrawA
      · rw [hraw, hrawA, List.append_assoc, ft]
        exact fP
      · rw [hraw, hrawA]
        rw [show (input.take (input.length - r1.length)
              ++ (certData.take (certData.length - r2.length) ++ tbsData)
              ++ afterT) ++ rest0
            = input.take (input.length - r1.length)
              ++ ((certData.take (certData.length - r2.length)
                   ++ (tbsData ++ afterT)) ++ rest0) from by
          simp [List.append_assoc]]
        rw [ft, fP, fc]
        exact fI

/-- The certificate SEQUENCE content of `certBytes` (the slice handed
to `TbsCertificate::from_der`). -/
def certDataW : Bytes := certBytes.drop 2

/-- The bytes of `certDataW` after the TBS header. -/
def r2W : Bytes := certDataW.drop 2

/-- The TBS SEQUENCE content of `certBytes`. -/
def tbsDataW : Bytes := r2W.take 48

/-- The bytes of the certificate content following the TBS element. -/
def afterTW : Bytes := r2W.drop 48

/-- Witness for C1 at the concrete certificate `certBytes`. -/
theorem C1_tbs_raw_signed_span_witness :
    certW.tbs_certificate.raw
        = certDataW.take (certDataW.length - r2W.length) ++ tbsDataW
    ∧ certW.tbs_certificate.raw ++ afterTW = certDataW
    ∧ certBytes.take (certBytes.length - certDataW.length)
        ++ certW.tbs_certificate.raw ++ afterTW ++ [] = certBytes :=
  C1_tbs_raw_signed_span certBytes certDataW certDataW [] r2W tbsDataW
    afterTW [] ⟨0, true, 16, 59⟩ ⟨0, true, 16, 48⟩ certW fldsW
    rfl rfl rfl rfl rfl rfl

end X509
